import Mathlib

/-!
Verification of the cassandra_snapshotter upload agent.

A shallow embedding of `cassandra_snapshotter/agent.py` and proofs about the
upload pipeline: the retrying multipart upload loop (`upload_file`), the
timeout-wrapped part upload (`upload_chunk`), best-effort session cancellation
(`cancel_upload`), the orchestrator (`put_from_manifest`) and the manifest
builder (`create_upload_manifest`).

Python-level exceptions and remote-service behaviour are modelled by an
environment oracle (`UploadEnv`) saying, for each iteration of the retry loop,
whether `initiate_multipart_upload` raises, at which chunk index (if any) the
chunk-upload `for` loop raises, how many chunks `compressed_pipe` yields, and
whether `complete_upload` raises.  The observable behaviour of a run is a
trace of `Event`s plus the returned boolean.
-/

set_option autoImplicit false

namespace Agent

/-! Constants from agent.py lines 25-30 and the literal bound in
`cancel_upload` (agent.py line 110). -/

def MAX_RETRY_COUNT : Nat := 3

def SLEEP_TIME : Nat := 2

def UPLOAD_TIMEOUT : Nat := 600

def CANCEL_MAX_ATTEMPTS : Nat := 5

/-- Observable actions of one `upload_file` task.  `session` numbers the
multipart uploads created by `initiate_multipart_upload`, in order: the
session initiated in loop iteration `k` has number `k`.  `timeoutBound` on a
part upload is the wall-clock bound the call is wrapped in (`none` for a bare
`mp.upload_part_from_file` call). -/
inductive Event where
  | initiate (session : Nat) (ok : Bool)
  | uploadPart (session : Nat) (partIndex : Nat) (timeoutBound : Option Nat)
  | complete (session : Nat) (ok : Bool)
  | cancel (session : Nat)
  | sleepRetry
deriving DecidableEq, Repr

/-- `upload_chunk` (agent.py lines 98-100): `mp.upload_part_from_file` wrapped
in `@timeout(UPLOAD_TIMEOUT)`.  It produces a part upload carrying the
`UPLOAD_TIMEOUT` wall-clock bound. -/
def upload_chunk (session index : Nat) : Event :=
  Event.uploadPart session index (some UPLOAD_TIMEOUT)

/-- Environment oracle for one `upload_file` run, indexed by the iteration
number `k` of the `while True` retry loop (agent.py line 63):

* `initiateOk k`    — does `initiate_multipart_upload` succeed in iteration `k`;
* `numChunks k`     — how many chunks the fresh `compressed_pipe` of iteration
                      `k` yields when read to the end;
* `chunkFail k`     — `some i` if the chunk loop of iteration `k` raises after
                      `i` parts were uploaded successfully (the exception comes
                      from producing or uploading the next chunk), `none` if
                      the loop runs to completion;
* `completeOk k`    — does `mp.complete_upload()` succeed in iteration `k`. -/
structure UploadEnv where
  initiateOk : Nat → Bool
  numChunks : Nat → Nat
  chunkFail : Nat → Option Nat
  completeOk : Nat → Bool

/-- Number of parts successfully uploaded during the chunk loop of iteration
`k` (agent.py lines 72-73). -/
def partsUploaded (env : UploadEnv) (k : Nat) : Nat :=
  match env.chunkFail k with
  | none => env.numChunks k
  | some i => i

/-- The part-upload events of iteration `k`: parts are numbered `i + 1` for
`i` ranging over the enumeration of `compressed_pipe` (agent.py line 73), and
the call is the bare `mp.upload_part_from_file`, not `upload_chunk`. -/
def iterParts (env : UploadEnv) (k : Nat) : List Event :=
  (List.range (partsUploaded env k)).map (fun i => Event.uploadPart k (i + 1) none)

/-- The `while True` retry loop of `upload_file` (agent.py lines 63-95).
`k` is both the iteration number and the value of `retry_count` at the top of
the iteration (`retry_count` starts at 0 and is incremented exactly once per
continued iteration, line 84).  The fuel argument is only a termination
measure: the loop body returns whenever `MAX_RETRY_COUNT ≤ k`, so starting
with fuel `MAX_RETRY_COUNT + 1` at `k = 0` never exhausts it. -/
def uploadFileGo (env : UploadEnv) : Nat → Nat → List Event × Bool
  | 0, _ => ([], false)
  | fuel + 1, k =>
    if env.initiateOk k then
      let pre := Event.initiate k true :: iterParts env k
      match env.chunkFail k with
      | some _ =>
        if MAX_RETRY_COUNT ≤ k then
          (pre ++ [Event.cancel k], false)
        else
          let rest := uploadFileGo env fuel (k + 1)
          (pre ++ Event.sleepRetry :: rest.1, rest.2)
      | none =>
        if env.completeOk k then
          (pre ++ [Event.complete k true], true)
        else
          (pre ++ [Event.complete k false, Event.cancel k], false)
    else
      ([Event.initiate k false], false)

/-- `upload_file` (agent.py lines 60-95): the trace of remote-service events
and the returned boolean outcome. -/
def upload_file (env : UploadEnv) : List Event × Bool :=
  uploadFileGo env (MAX_RETRY_COUNT + 1) 0

/-- Is the event a part upload carrying a wall-clock timeout bound? -/
def timedPart : Event → Bool
  | Event.uploadPart _ _ (some _) => true
  | _ => false

/-- Is the event a session initiation? -/
def isInitiate : Event → Bool
  | Event.initiate _ _ => true
  | _ => false

/-- Is the event a part upload with part index `i` (in any session)? -/
def isPartIdx (i : Nat) : Event → Bool
  | Event.uploadPart _ j _ => j == i
  | _ => false

/-- Is the event a terminating event of session `k`: a *successful* complete,
or a cancel?  (A failed `complete_upload` call does not terminate the
session; the code follows it with `cancel_upload`.) -/
def isTerminal (k : Nat) : Event → Bool
  | Event.complete s ok => s == k && ok
  | Event.cancel s => s == k
  | _ => false

/-- Is the event a part upload against session `k`? -/
def isPartOf (k : Nat) : Event → Bool
  | Event.uploadPart s _ _ => s == k
  | _ => false

/-- Every session mentioned by the event is `≥ k` (`sleepRetry` mentions
none). -/
def sessGe (k : Nat) : Event → Bool
  | Event.initiate s _ => decide (k ≤ s)
  | Event.uploadPart s _ _ => decide (k ≤ s)
  | Event.complete s _ => decide (k ≤ s)
  | Event.cancel s => decide (k ≤ s)
  | Event.sleepRetry => true

/-- Does some part upload against session `k` occur strictly after a
terminating event of session `k`? -/
def partAfterTerminal (k : Nat) : List Event → Bool
  | [] => false
  | e :: es => if isTerminal k e then es.any (isPartOf k) else partAfterTerminal k es

/-- The `while attempts < 5` loop of `cancel_upload` (agent.py lines
109-121), with `remaining = CANCEL_MAX_ATTEMPTS - attempts` as the structural
measure.  `attemptFails a` says whether the `a`-th execution of the `try`
block (sleep, `mp.cancel_upload()`, sleep, re-list and cancel stragglers)
raises.  Returns (number of `try`-block executions, whether one of them ran to
its `return`).  The `remaining = 0` case is the loop condition turning false:
the function returns normally, reporting nothing. -/
def cancelUploadGo (attemptFails : Nat → Bool) : Nat → Nat → Nat × Bool
  | 0, attempts => (attempts, false)
  | remaining + 1, attempts =>
    if attemptFails attempts then
      cancelUploadGo attemptFails remaining (attempts + 1)
    else
      (attempts + 1, true)

/-- `cancel_upload` (agent.py lines 103-121): best-effort cancellation.  Every
exception of the `try` block is caught (`except Exception`), so the function
is total — it always returns normally; the model has no error outcome at
all. -/
def cancel_upload (attemptFails : Nat → Bool) : Nat × Bool :=
  cancelUploadGo attemptFails CANCEL_MAX_ATTEMPTS 0

/-- The result-consumption loop of `put_from_manifest` (agent.py lines
141-145): `for ret in pool.imap(upload_file, ...)` in manifest order, setting
`exit_code = 1` and breaking on the first falsy result.  Returns
(exit code, number of results consumed). -/
def consumeResults : List Bool → Nat × Nat
  | [] => (0, 0)
  | r :: rs =>
    if r then
      let p := consumeResults rs
      (p.1, p.2 + 1)
    else
      (1, 1)

/-- Observable outcome of `put_from_manifest` (agent.py lines 124-150). -/
structure PutOutcome where
  exit_code : Nat
  consumed : Nat
  poolTerminated : Bool
  deleted : List String
deriving DecidableEq, Repr

/-- `put_from_manifest` (agent.py lines 124-150).  `files` is the manifest
split into lines; `uploadOutcome f` is the boolean returned by the
`upload_file` task for file `f`.  The pool is terminated right after the
consumption loop (line 146); if `incremental_backups` is set, every
manifest-listed file is removed (lines 147-149); the process exits with
`exit_code` (line 150). -/
def put_from_manifest (files : List String) (uploadOutcome : String → Bool)
    (incremental_backups : Bool) : PutOutcome :=
  let p := consumeResults (files.map uploadOutcome)
  { exit_code := p.1
    consumed := p.2
    poolTerminated := true
    deleted := if incremental_backups then files else [] }

/-- Python strings of the manifest builder are modelled as lists of
characters, so that `join`/`split`/`strip` are the structural list
operations. -/
abbrev PyStr : Type := List Char

/-- Python `str.strip()`: drop leading and trailing whitespace. -/
def pyStrip (s : PyStr) : PyStr :=
  ((s.dropWhile Char.isWhitespace).reverse.dropWhile Char.isWhitespace).reverse

/-- The body of the per-combination loop of `create_upload_manifest`
(agent.py lines 192-193): the glob results are joined with newlines, split on
newlines again, and each piece is stripped.  On an empty glob result the
join is the empty string, whose split is `[""]` (here: `[[]]`). -/
def comboEntries (glob_results : List PyStr) : List PyStr :=
  ((List.intercalate ['\n'] glob_results).splitOn '\n').map pyStrip

/-- The file-list accumulation of `create_upload_manifest` (agent.py lines
177-193): iterate over every data path, then over every keyspace glob, and
extend `files` with that combination's `comboEntries`.  `globResults dp kg`
stands for `glob.glob` on the pattern built from `dp` and `kg`. -/
def create_upload_manifest_files (data_paths keyspace_globs : List PyStr)
    (globResults : PyStr → PyStr → List PyStr) : List PyStr :=
  data_paths.flatMap (fun dp =>
    keyspace_globs.flatMap (fun kg => comboEntries (globResults dp kg)))

/-- The manifest write (agent.py lines 195-196): entries joined by
newlines. -/
def manifestContents (files : List PyStr) : PyStr :=
  List.intercalate ['\n'] files

/-! Concrete environments used in counterexamples and witnesses. -/

/-- A run in which the first iteration uploads part 1 successfully, fails on
part 2, and the retry then succeeds end-to-end (two chunks per pipe). -/
def env0 : UploadEnv :=
  { initiateOk := fun _ => true
    numChunks := fun _ => 2
    chunkFail := fun k => if k = 0 then some 1 else none
    completeOk := fun _ => true }

/-- A run whose chunk loop fails in every iteration `k < M` (before any part
is uploaded) and succeeds from iteration `M` on, with complete succeeding:
the per-file operation fails exactly `M` times and then succeeds. -/
def failsMTimes (M : Nat) : UploadEnv :=
  { initiateOk := fun _ => true
    numChunks := fun _ => 1
    chunkFail := fun k => if k < M then some 0 else none
    completeOk := fun _ => true }

/-- A run in which initiation itself fails immediately. -/
def envInitFail : UploadEnv :=
  { initiateOk := fun _ => false
    numChunks := fun _ => 1
    chunkFail := fun _ => none
    completeOk := fun _ => true }

/-- A run in which all chunks upload but `complete_upload` fails. -/
def envCompleteFail : UploadEnv :=
  { initiateOk := fun _ => true
    numChunks := fun _ => 1
    chunkFail := fun _ => none
    completeOk := fun _ => false }

/-! ## Basic shape lemmas about the retry loop -/

theorem mem_iterParts_iff (env : UploadEnv) (k : Nat) (e : Event) :
    e ∈ iterParts env k ↔ ∃ i, i < partsUploaded env k ∧ e = Event.uploadPart k (i + 1) none := by
  simp [iterParts, eq_comm]

theorem uploadFileGo_init_fail_step (env : UploadEnv) (fuel k : Nat)
    (h : env.initiateOk k = false) :
    uploadFileGo env (fuel + 1) k = ([Event.initiate k false], false) := by
  simp [uploadFileGo, h]

theorem uploadFileGo_giveup_step (env : UploadEnv) (fuel k i : Nat)
    (h : env.initiateOk k = true) (hsome : env.chunkFail k = some i)
    (hk : MAX_RETRY_COUNT ≤ k) :
    uploadFileGo env (fuel + 1) k
      = ((Event.initiate k true :: iterParts env k) ++ [Event.cancel k], false) := by
  simp only [uploadFileGo, h, if_true, hsome]
  rw [if_pos hk]

theorem uploadFileGo_retry_step (env : UploadEnv) (fuel k i : Nat)
    (h : env.initiateOk k = true) (hsome : env.chunkFail k = some i)
    (hk : k < MAX_RETRY_COUNT) :
    uploadFileGo env (fuel + 1) k
      = ((Event.initiate k true :: iterParts env k)
          ++ Event.sleepRetry :: (uploadFileGo env fuel (k + 1)).1,
         (uploadFileGo env fuel (k + 1)).2) := by
  simp only [uploadFileGo, h, if_true, hsome]
  rw [if_neg (by omega)]

theorem uploadFileGo_complete_ok_step (env : UploadEnv) (fuel k : Nat)
    (h : env.initiateOk k = true) (hnone : env.chunkFail k = none)
    (hco : env.completeOk k = true) :
    uploadFileGo env (fuel + 1) k
      = ((Event.initiate k true :: iterParts env k) ++ [Event.complete k true], true) := by
  simp only [uploadFileGo, h, if_true, hnone, hco]

theorem uploadFileGo_complete_fail_step (env : UploadEnv) (fuel k : Nat)
    (h : env.initiateOk k = true) (hnone : env.chunkFail k = none)
    (hco : env.completeOk k = false) :
    uploadFileGo env (fuel + 1) k
      = ((Event.initiate k true :: iterParts env k)
          ++ [Event.complete k false, Event.cancel k], false) := by
  simp only [uploadFileGo, h, if_true, hnone, hco]
  simp

theorem partAfterTerminal_nil (j : Nat) : partAfterTerminal j [] = false := rfl

theorem partAfterTerminal_cons (j : Nat) (e : Event) (es : List Event) :
    partAfterTerminal j (e :: es)
      = if isTerminal j e then es.any (isPartOf j) else partAfterTerminal j es := rfl

/-! ## Session bookkeeping lemmas -/

theorem pre_not_terminal (env : UploadEnv) (k j : Nat) (e : Event)
    (he : e ∈ Event.initiate k true :: iterParts env k) : isTerminal j e = false := by
  rcases List.mem_cons.1 he with rfl | hp
  · rfl
  · obtain ⟨i, _, rfl⟩ := (mem_iterParts_iff env k e).1 hp
    rfl

theorem pre_sessGe (env : UploadEnv) (k : Nat) (e : Event)
    (he : e ∈ Event.initiate k true :: iterParts env k) : sessGe k e = true := by
  rcases List.mem_cons.1 he with rfl | hp
  · simp [sessGe]
  · obtain ⟨i, _, rfl⟩ := (mem_iterParts_iff env k e).1 hp
    simp [sessGe]

theorem sessGe_mono (a b : Nat) (e : Event) (hab : a ≤ b) (h : sessGe b e = true) :
    sessGe a e = true := by
  cases e with
  | initiate s ok => simp [sessGe] at h ⊢; omega
  | uploadPart s i t => simp [sessGe] at h ⊢; omega
  | complete s ok => simp [sessGe] at h ⊢; omega
  | cancel s => simp [sessGe] at h ⊢; omega
  | sleepRetry => rfl

/-- Every event emitted from loop iteration `k` onwards mentions only
sessions `≥ k`. -/
theorem uploadFileGo_sessGe (env : UploadEnv) (fuel : Nat) :
    ∀ k, ∀ e ∈ (uploadFileGo env fuel k).1, sessGe k e = true := by
  induction fuel with
  | zero => intro k e he; simp [uploadFileGo] at he
  | succ fuel ih =>
    intro k e he
    cases hinit : env.initiateOk k with
    | false =>
      rw [uploadFileGo_init_fail_step env fuel k hinit] at he
      simp at he
      subst he
      simp [sessGe]
    | true =>
      cases hc : env.chunkFail k with
      | some i =>
        by_cases hk : MAX_RETRY_COUNT ≤ k
        · rw [uploadFileGo_giveup_step env fuel k i hinit hc hk] at he
          rcases List.mem_append.1 he with h1 | h2
          · exact pre_sessGe env k e h1
          · simp at h2
            subst h2
            simp [sessGe]
        · rw [uploadFileGo_retry_step env fuel k i hinit hc (by omega)] at he
          rcases List.mem_append.1 he with h1 | h2
          · exact pre_sessGe env k e h1
          · rcases List.mem_cons.1 h2 with rfl | h3
            · rfl
            · exact sessGe_mono k (k + 1) e (by omega) (ih (k + 1) e h3)
      | none =>
        cases hco : env.completeOk k with
        | true =>
          rw [uploadFileGo_complete_ok_step env fuel k hinit hc hco] at he
          rcases List.mem_append.1 he with h1 | h2
          · exact pre_sessGe env k e h1
          · simp at h2
            subst h2
            simp [sessGe]
        | false =>
          rw [uploadFileGo_complete_fail_step env fuel k hinit hc hco] at he
          rcases List.mem_append.1 he with h1 | h2
          · exact pre_sessGe env k e h1
          · simp at h2
            rcases h2 with rfl | rfl <;> simp [sessGe]

theorem sess_lt_aux (j k : Nat) (e : Event) (hjk : j < k) (h : sessGe k e = true) :
    isTerminal j e = false ∧ isPartOf j e = false := by
  cases e with
  | initiate s ok => exact ⟨rfl, rfl⟩
  | uploadPart s i t =>
    refine ⟨rfl, ?_⟩
    simp [sessGe] at h
    simp [isPartOf]
    omega
  | complete s ok =>
    refine ⟨?_, rfl⟩
    simp [sessGe] at h
    have hs : (s == j) = false := by
      simp
      omega
    simp [isTerminal, hs]
  | cancel s =>
    refine ⟨?_, rfl⟩
    simp [sessGe] at h
    simp [isTerminal]
    omega
  | sleepRetry => exact ⟨rfl, rfl⟩

/-- A list whose events all mention sessions `≥ k` contains nothing of a
session `j < k`: no terminating event, no part upload, and in particular no
part-after-termination. -/
theorem no_low_session_events (j k : Nat) (l : List Event) (hjk : j < k)
    (h : ∀ e ∈ l, sessGe k e = true) :
    l.countP (isTerminal j) = 0 ∧ partAfterTerminal j l = false := by
  induction l with
  | nil => exact ⟨rfl, rfl⟩
  | cons e es ih =>
    have he := sess_lt_aux j k e hjk (h e (List.mem_cons_self e es))
    have ihs := ih (fun x hx => h x (List.mem_cons_of_mem e hx))
    constructor
    · rw [List.countP_cons]
      simp [he.1, ihs.1]
    · simp [partAfterTerminal, he.1, ihs.2]

theorem partAfterTerminal_append (j : Nat) (l₁ l₂ : List Event)
    (h : ∀ e ∈ l₁, isTerminal j e = false) :
    partAfterTerminal j (l₁ ++ l₂) = partAfterTerminal j l₂ := by
  induction l₁ with
  | nil => rfl
  | cons e es ih =>
    rw [List.cons_append]
    rw [partAfterTerminal, if_neg (by simp [h e (List.mem_cons_self e es)])]
    exact ih (fun x hx => h x (List.mem_cons_of_mem e hx))

/-- Core invariant of the retry loop: for every session `j` that can appear
from iteration `k` on, the trace contains at most one terminating event of
session `j`, and no part upload of session `j` occurs after a terminating
event of session `j`. -/
theorem uploadFileGo_terminal_spec (env : UploadEnv) (fuel : Nat) :
    ∀ k j, k ≤ j →
      ((uploadFileGo env fuel k).1).countP (isTerminal j) ≤ 1
      ∧ partAfterTerminal j ((uploadFileGo env fuel k).1) = false := by
  induction fuel with
  | zero =>
    intro k j _
    exact ⟨by simp [uploadFileGo], rfl⟩
  | succ fuel ih =>
    intro k j hkj
    have hpre : ∀ e ∈ Event.initiate k true :: iterParts env k, ¬(isTerminal j e = true) :=
      fun e he => by simp [pre_not_terminal env k j e he]
    have hpre0 : (Event.initiate k true :: iterParts env k).countP (isTerminal j) = 0 :=
      List.countP_eq_zero.2 hpre
    cases hinit : env.initiateOk k with
    | false =>
      rw [uploadFileGo_init_fail_step env fuel k hinit]
      constructor
      · simp [List.countP_cons, isTerminal]
      · simp [partAfterTerminal, isTerminal]
    | true =>
      cases hc : env.chunkFail k with
      | some i =>
        by_cases hk : MAX_RETRY_COUNT ≤ k
        · rw [uploadFileGo_giveup_step env fuel k i hinit hc hk]
          constructor
          · rw [List.countP_append, hpre0]
            cases hterm : isTerminal j (Event.cancel k) <;>
              simp [List.countP_cons, hterm]
          · rw [partAfterTerminal_append j _ _ (fun e he => pre_not_terminal env k j e he)]
            cases hterm : isTerminal j (Event.cancel k) <;>
              simp [partAfterTerminal_cons, partAfterTerminal_nil, hterm, List.any_nil]
        · rw [uploadFileGo_retry_step env fuel k i hinit hc (by omega)]
          have hrest : ((uploadFileGo env fuel (k + 1)).1).countP (isTerminal j) ≤ 1
              ∧ partAfterTerminal j ((uploadFileGo env fuel (k + 1)).1) = false := by
            rcases Nat.lt_or_ge j (k + 1) with hj | hj
            · have hz := no_low_session_events j (k + 1) ((uploadFileGo env fuel (k + 1)).1) hj
                (uploadFileGo_sessGe env fuel (k + 1))
              exact ⟨by omega, hz.2⟩
            · exact ih (k + 1) j hj
          constructor
          · rw [List.countP_append, hpre0, List.countP_cons]
            simp [isTerminal]
            exact hrest.1
          · rw [partAfterTerminal_append j _ _ (fun e he => pre_not_terminal env k j e he)]
            rw [partAfterTerminal_cons, if_neg (by simp [isTerminal])]
            exact hrest.2
      | none =>
        cases hco : env.completeOk k with
        | false =>
          rw [uploadFileGo_complete_fail_step env fuel k hinit hc hco]
          constructor
          · rw [List.countP_append, hpre0]
            have h1 : isTerminal j (Event.complete k false) = false := by
              simp [isTerminal]
            cases hterm : isTerminal j (Event.cancel k) <;>
              simp [List.countP_cons, hterm, h1]
          · rw [partAfterTerminal_append j _ _ (fun e he => pre_not_terminal env k j e he)]
            rw [partAfterTerminal_cons, if_neg (by simp [isTerminal])]
            cases hterm : isTerminal j (Event.cancel k) <;>
              simp [partAfterTerminal_cons, partAfterTerminal_nil, hterm, List.any_nil]
        | true =>
          rw [uploadFileGo_complete_ok_step env fuel k hinit hc hco]
          constructor
          · rw [List.countP_append, hpre0]
            cases hterm : isTerminal j (Event.complete k true) <;>
              simp [List.countP_cons, hterm]
          · rw [partAfterTerminal_append j _ _ (fun e he => pre_not_terminal env k j e he)]
            cases hterm : isTerminal j (Event.complete k true) <;>
              simp [partAfterTerminal_cons, partAfterTerminal_nil, hterm, List.any_nil]

/-- Whenever iteration `k` initiates successfully, the initiation event and
all of that iteration's part uploads appear in the trace, whatever happens
afterwards. -/
theorem pre_mem_uploadFileGo (env : UploadEnv) (fuel k : Nat) (h : env.initiateOk k = true)
    (e : Event) (he : e ∈ Event.initiate k true :: iterParts env k) :
    e ∈ (uploadFileGo env (fuel + 1) k).1 := by
  cases hc : env.chunkFail k with
  | some i =>
    by_cases hk : MAX_RETRY_COUNT ≤ k
    · rw [uploadFileGo_giveup_step env fuel k i h hc hk]
      exact List.mem_append_left _ he
    · rw [uploadFileGo_retry_step env fuel k i h hc (by omega)]
      exact List.mem_append_left _ he
  | none =>
    cases hco : env.completeOk k with
    | true =>
      rw [uploadFileGo_complete_ok_step env fuel k h hc hco]
      exact List.mem_append_left _ he
    | false =>
      rw [uploadFileGo_complete_fail_step env fuel k h hc hco]
      exact List.mem_append_left _ he

/-- No event of the main upload loop carries a timeout bound: the loop calls
`mp.upload_part_from_file` directly (agent.py line 73), never `upload_chunk`. -/
theorem uploadFileGo_no_timedPart (env : UploadEnv) (fuel : Nat) :
    ∀ k, ∀ e ∈ (uploadFileGo env fuel k).1, timedPart e = false := by
  induction fuel with
  | zero => intro k e he; simp [uploadFileGo] at he
  | succ fuel ih =>
    intro k e he
    cases hinit : env.initiateOk k with
    | false =>
      rw [uploadFileGo_init_fail_step env fuel k hinit] at he
      simp at he
      subst he
      rfl
    | true =>
      have hpre : ∀ x ∈ Event.initiate k true :: iterParts env k, timedPart x = false := by
        intro x hx
        rcases List.mem_cons.1 hx with rfl | hp
        · rfl
        · obtain ⟨i, _, rfl⟩ := (mem_iterParts_iff env k x).1 hp
          rfl
      cases hc : env.chunkFail k with
      | some i =>
        by_cases hk : MAX_RETRY_COUNT ≤ k
        · rw [uploadFileGo_giveup_step env fuel k i hinit hc hk] at he
          rcases List.mem_append.1 he with h1 | h2
          · exact hpre e h1
          · simp at h2
            subst h2
            rfl
        · rw [uploadFileGo_retry_step env fuel k i hinit hc (by omega)] at he
          rcases List.mem_append.1 he with h1 | h2
          · exact hpre e h1
          · rcases List.mem_cons.1 h2 with rfl | h3
            · rfl
            · exact ih (k + 1) e h3
      | none =>
        cases hco : env.completeOk k with
        | true =>
          rw [uploadFileGo_complete_ok_step env fuel k hinit hc hco] at he
          rcases List.mem_append.1 he with h1 | h2
          · exact hpre e h1
          · simp at h2
            subst h2
            rfl
        | false =>
          rw [uploadFileGo_complete_fail_step env fuel k hinit hc hco] at he
          rcases List.mem_append.1 he with h1 | h2
          · exact hpre e h1
          · simp at h2
            rcases h2 with rfl | rfl <;> rfl

/-! ## Lemmas about the orchestrator and cancellation loops -/

theorem consumeResults_spec (rs : List Bool) :
    (consumeResults rs).1 = (if rs.all (fun r => r) then 0 else 1)
    ∧ (consumeResults rs).2 = min (rs.findIdx (fun r => !r) + 1) rs.length := by
  induction rs with
  | nil => exact ⟨rfl, rfl⟩
  | cons r rs ih =>
    cases r with
    | false =>
      constructor
      · simp [consumeResults]
      · simp [consumeResults, List.findIdx_cons]
    | true =>
      constructor
      · simpa [consumeResults] using ih.1
      · have h2 := ih.2
        simp [consumeResults, List.findIdx_cons]
        omega

theorem cancelUploadGo_le (attemptFails : Nat → Bool) (fuel : Nat) :
    ∀ attempts, (cancelUploadGo attemptFails fuel attempts).1 ≤ attempts + fuel := by
  induction fuel with
  | zero => intro attempts; simp [cancelUploadGo]
  | succ fuel ih =>
    intro attempts
    rw [cancelUploadGo]
    split
    · exact le_trans (ih (attempts + 1)) (by omega)
    · simp

theorem cancelUploadGo_all_fail (attemptFails : Nat → Bool) (fuel : Nat) :
    ∀ attempts, (∀ a, a < attempts + fuel → attemptFails a = true) →
      cancelUploadGo attemptFails fuel attempts = (attempts + fuel, false) := by
  induction fuel with
  | zero => intro attempts _; simp [cancelUploadGo]
  | succ fuel ih =>
    intro attempts h
    have ha : attemptFails attempts = true := h attempts (by omega)
    rw [cancelUploadGo, if_pos ha]
    rw [ih (attempts + 1) (fun a ha2 => h a (by omega))]
    congr 1
    omega

/-- Two environments that agree on the iterations the loop can reach give the
same run. -/
theorem uploadFileGo_congr (env env2 : UploadEnv) (fuel : Nat) :
    ∀ k, (∀ k2, k ≤ k2 → k2 < k + fuel →
        env.initiateOk k2 = env2.initiateOk k2
        ∧ env.chunkFail k2 = env2.chunkFail k2
        ∧ env.numChunks k2 = env2.numChunks k2
        ∧ env.completeOk k2 = env2.completeOk k2) →
      uploadFileGo env fuel k = uploadFileGo env2 fuel k := by
  induction fuel with
  | zero => intro k _; rfl
  | succ fuel ih =>
    intro k h
    have hk := h k (le_refl k) (by omega)
    have hiter : iterParts env k = iterParts env2 k := by
      simp [iterParts, partsUploaded, hk.2.1, hk.2.2.1]
    simp only [uploadFileGo]
    rw [hk.1, hk.2.1, hiter, hk.2.2.2,
      ih (k + 1) (fun k2 h1 h2 => h k2 (by omega) (by omega))]

/-! ## Claims -/

/-- Claim C1, counterexample.  In run `env0` the first session uploads chunk 1
successfully and then fails on chunk 2; the claim says the retry re-attempts
only chunk 2 and does not replay chunk 1 or restart the stream.  In fact the
trace uploads part index 1 twice and initiates two multipart sessions: the
retry restarted the whole file. -/
theorem upload_file_replays_acknowledged_chunk :
    (upload_file env0).1.countP (isPartIdx 1) = 2
    ∧ (upload_file env0).1.countP isInitiate = 2
    ∧ (upload_file env0).2 = true := by decide

/-- Claim C1, amended.  When the chunk loop of the first iteration fails after
at least one chunk was acknowledged (`chunkFail 0 = some j`, `1 ≤ j`), the
retry does not resume at the failed chunk: it initiates a brand-new session
and re-reads the chunk stream from the start, so part 1 — already acknowledged
in session 0 — is uploaded again in session 1 as soon as the new iteration
uploads any part at all. -/
theorem upload_file_retry_restarts_from_first_chunk (env : UploadEnv) (j : Nat)
    (h0 : env.initiateOk 0 = true) (hf : env.chunkFail 0 = some j) (hj : 1 ≤ j)
    (h1 : env.initiateOk 1 = true) (hp : 1 ≤ partsUploaded env 1) :
    Event.uploadPart 0 1 none ∈ (upload_file env).1
    ∧ Event.initiate 1 true ∈ (upload_file env).1
    ∧ Event.uploadPart 1 1 none ∈ (upload_file env).1 := by
  have hstep : upload_file env
      = ((Event.initiate 0 true :: iterParts env 0)
          ++ Event.sleepRetry :: (uploadFileGo env MAX_RETRY_COUNT 1).1,
         (uploadFileGo env MAX_RETRY_COUNT 1).2) :=
    uploadFileGo_retry_step env MAX_RETRY_COUNT 0 j h0 hf (by decide)
  have hpart0 : Event.uploadPart 0 1 none ∈ iterParts env 0 := by
    refine (mem_iterParts_iff env 0 _).2 ⟨0, ?_, rfl⟩
    simp [partsUploaded, hf]
    omega
  have hmem1 : ∀ e ∈ Event.initiate 1 true :: iterParts env 1,
      e ∈ (uploadFileGo env MAX_RETRY_COUNT 1).1 := by
    intro e he
    exact pre_mem_uploadFileGo env 2 1 h1 e he
  have hpart1 : Event.uploadPart 1 1 none ∈ iterParts env 1 :=
    (mem_iterParts_iff env 1 _).2 ⟨0, by omega, rfl⟩
  rw [hstep]
  refine ⟨List.mem_append_left _ (List.mem_cons_of_mem _ hpart0), ?_, ?_⟩
  · exact List.mem_append_right _
      (List.mem_cons_of_mem _ (hmem1 _ (List.mem_cons_self _ _)))
  · exact List.mem_append_right _
      (List.mem_cons_of_mem _ (hmem1 _ (List.mem_cons_of_mem _ hpart1)))

/-- Witness for the amended claim C1, at the concrete run `env0`. -/
theorem upload_file_retry_restarts_from_first_chunk_witness :
    Event.uploadPart 0 1 none ∈ (upload_file env0).1
    ∧ Event.initiate 1 true ∈ (upload_file env0).1
    ∧ Event.uploadPart 1 1 none ∈ (upload_file env0).1 :=
  upload_file_retry_restarts_from_first_chunk env0 1 rfl (by decide) (by decide) rfl
    (by decide)

/-- Claim C2, counterexample.  With the per-file operation failing exactly
`M = MAX_RETRY_COUNT` times and then succeeding, the claim predicts failure
(`M < C` is false) after `min (M+1) C = 3` attempts; the code actually
succeeds after 4 attempts, because `retry_count >= MAX_RETRY_COUNT` is only
checked after a failure. -/
theorem retry_ceiling_claim_false :
    ¬(((upload_file (failsMTimes MAX_RETRY_COUNT)).2 = true
        ↔ MAX_RETRY_COUNT < MAX_RETRY_COUNT)
      ∧ (upload_file (failsMTimes MAX_RETRY_COUNT)).1.countP isInitiate
          = min (MAX_RETRY_COUNT + 1) MAX_RETRY_COUNT) := by decide

/-- Claim C2, amended.  For an operation failing exactly `M` times and then
succeeding, the outcome is success iff `M ≤ MAX_RETRY_COUNT`, and the number
of attempts (loop iterations, i.e. sessions initiated) is exactly
`min (M+1) (MAX_RETRY_COUNT + 1)`. -/
theorem upload_file_retry_attempt_count (M : Nat) :
    ((upload_file (failsMTimes M)).2 = true ↔ M ≤ MAX_RETRY_COUNT)
    ∧ (upload_file (failsMTimes M)).1.countP isInitiate
        = min (M + 1) (MAX_RETRY_COUNT + 1) := by
  match M with
  | 0 => exact ⟨by decide, by decide⟩
  | 1 => exact ⟨by decide, by decide⟩
  | 2 => exact ⟨by decide, by decide⟩
  | 3 => exact ⟨by decide, by decide⟩
  | m + 4 =>
    have hcongr : upload_file (failsMTimes (m + 4)) = upload_file (failsMTimes 4) := by
      refine uploadFileGo_congr (failsMTimes (m + 4)) (failsMTimes 4) (MAX_RETRY_COUNT + 1)
        0 ?_
      intro k2 _ hlt
      have hk4 : k2 < 4 := by
        have : MAX_RETRY_COUNT + 1 = 4 := rfl
        omega
      refine ⟨rfl, ?_, rfl, rfl⟩
      simp [failsMTimes, hk4, show k2 < m + 4 from by omega]
    constructor
    · rw [hcongr]
      have hv : (upload_file (failsMTimes 4)).2 = false := by decide
      rw [hv]
      have h3 : MAX_RETRY_COUNT = 3 := rfl
      rw [h3]
      simp
    · rw [hcongr]
      have hc4 : (upload_file (failsMTimes 4)).1.countP isInitiate = 4 := by decide
      rw [hc4]
      have h4 : MAX_RETRY_COUNT + 1 = 4 := rfl
      rw [h4]
      omega

/-- Claim C3, counterexample.  In run `env0` a session is initiated (session
0), the task even succeeds, yet session 0 receives neither a successful
complete nor a cancel: it is abandoned when the retry initiates session 1. -/
theorem upload_file_abandons_superseded_session :
    Event.initiate 0 true ∈ (upload_file env0).1
    ∧ (upload_file env0).1.countP (isTerminal 0) = 0
    ∧ (upload_file env0).2 = true := by decide

/-- Claim C3, amended.  Every session is terminated by *at most* one of a
successful complete or a cancel, and once terminated no further part upload
is issued against it; but "exactly one" fails: a session whose chunk loop
fails while retries remain is abandoned without complete or cancel — the
retry initiates a fresh session and all later events concern sessions with
larger numbers. -/
theorem upload_file_session_termination (env : UploadEnv) (k : Nat) :
    (upload_file env).1.countP (isTerminal k) ≤ 1
    ∧ partAfterTerminal k (upload_file env).1 = false
    ∧ (env.initiateOk 0 = true → env.chunkFail 0 ≠ none →
        (upload_file env).1.countP (isTerminal 0) = 0) := by
  refine ⟨(uploadFileGo_terminal_spec env (MAX_RETRY_COUNT + 1) 0 k (Nat.zero_le k)).1,
          (uploadFileGo_terminal_spec env (MAX_RETRY_COUNT + 1) 0 k (Nat.zero_le k)).2, ?_⟩
  intro h0 hsome
  obtain ⟨i, hi⟩ := Option.ne_none_iff_exists.mp hsome
  have hstep : upload_file env
      = ((Event.initiate 0 true :: iterParts env 0)
          ++ Event.sleepRetry :: (uploadFileGo env MAX_RETRY_COUNT 1).1,
         (uploadFileGo env MAX_RETRY_COUNT 1).2) :=
    uploadFileGo_retry_step env MAX_RETRY_COUNT 0 i h0 hi.symm (by decide)
  rw [hstep]
  rw [List.countP_append,
    List.countP_eq_zero.2 (fun e he => by simp [pre_not_terminal env 0 0 e he]),
    List.countP_cons]
  have hz := no_low_session_events 0 1 ((uploadFileGo env MAX_RETRY_COUNT 1).1) (by omega)
    (uploadFileGo_sessGe env MAX_RETRY_COUNT 1)
  simp [hz.1, isTerminal]

/-- Witness for the amended claim C3, at the concrete run `env0`. -/
theorem upload_file_session_termination_witness :
    (upload_file env0).1.countP (isTerminal 1) ≤ 1
    ∧ partAfterTerminal 1 (upload_file env0).1 = false
    ∧ (upload_file env0).1.countP (isTerminal 0) = 0 := by
  have h := upload_file_session_termination env0 1
  exact ⟨h.1, h.2.1, h.2.2 rfl (by decide)⟩

/-- Claim C4: with `incremental_backups` set, `put_from_manifest` deletes
every manifest-listed file after the job outcome is computed, whatever each
task returned; with it unset, it deletes nothing (agent.py lines 147-149). -/
theorem put_from_manifest_incremental_deletion (files : List String)
    (uploadOutcome : String → Bool) :
    (put_from_manifest files uploadOutcome true).deleted = files
    ∧ (put_from_manifest files uploadOutcome false).deleted = [] :=
  ⟨rfl, rfl⟩

/-- Claim C5: the exit code is 0 iff every task outcome is a success, and the
loop consumes outcomes in manifest order, stopping right after the first
failure (`consumed` is the position of the first failure, or the whole list
when none fails); the pool is terminated afterwards in every case. -/
theorem put_from_manifest_exit_and_order (files : List String)
    (uploadOutcome : String → Bool) (inc : Bool) :
    (put_from_manifest files uploadOutcome inc).exit_code
      = (if (files.map uploadOutcome).all (fun r => r) then 0 else 1)
    ∧ (put_from_manifest files uploadOutcome inc).consumed
      = min ((files.map uploadOutcome).findIdx (fun r => !r) + 1) files.length
    ∧ (put_from_manifest files uploadOutcome inc).poolTerminated = true := by
  refine ⟨(consumeResults_spec (files.map uploadOutcome)).1, ?_, rfl⟩
  have h := (consumeResults_spec (files.map uploadOutcome)).2
  rw [List.length_map] at h
  exact h

/-- Claim C6: contrary to the claim, no part upload issued by the main upload
path carries any wall-clock bound — the loop at agent.py line 73 calls
`mp.upload_part_from_file` directly, and the `UPLOAD_TIMEOUT`-wrapped
`upload_chunk` helper (which would produce a bounded call) is never invoked. -/
theorem upload_file_part_uploads_not_timeout_bounded (env : UploadEnv) :
    (∀ e ∈ (upload_file env).1, timedPart e = false)
    ∧ upload_chunk 1 1 = Event.uploadPart 1 1 (some UPLOAD_TIMEOUT) :=
  ⟨fun e he => uploadFileGo_no_timedPart env (MAX_RETRY_COUNT + 1) 0 e he, rfl⟩

/-- Witness for C6, at the concrete run `env0`: its first part upload is
unbounded. -/
theorem upload_file_part_uploads_not_timeout_bounded_witness :
    timedPart (Event.uploadPart 0 1 none) = false :=
  (upload_file_part_uploads_not_timeout_bounded env0).1 (Event.uploadPart 0 1 none)
    (by decide)

/-- Claim C7: if `initiate_multipart_upload` fails in any loop iteration, the
task returns `False` immediately — the trace of that iteration is the single
failed initiation, with no retry sleep and no cancellation (agent.py lines
64-70); in particular this holds for the whole task when the first initiation
fails. -/
theorem upload_file_initiate_failure_aborts (env : UploadEnv) (fuel k : Nat) :
    (env.initiateOk k = false →
      uploadFileGo env (fuel + 1) k = ([Event.initiate k false], false))
    ∧ (env.initiateOk 0 = false →
      upload_file env = ([Event.initiate 0 false], false)) := by
  constructor
  · intro h
    exact uploadFileGo_init_fail_step env fuel k h
  · intro h
    exact uploadFileGo_init_fail_step env MAX_RETRY_COUNT 0 h

/-- Witness for C7: a run whose initiation always fails. -/
theorem upload_file_initiate_failure_aborts_witness :
    upload_file envInitFail = ([Event.initiate 0 false], false) :=
  (upload_file_initiate_failure_aborts envInitFail 0 0).2 rfl

/-- Claim C8: when every chunk is acknowledged (`chunkFail k = none`) but
`complete_upload` fails, the iteration emits exactly one (failed) complete
event followed by a cancellation and the task returns `False`; complete is
not retried (agent.py lines 85-95). -/
theorem upload_file_complete_failure_cancels (env : UploadEnv) (fuel k : Nat)
    (hinit : env.initiateOk k = true) (hchunks : env.chunkFail k = none)
    (hcomp : env.completeOk k = false) :
    uploadFileGo env (fuel + 1) k
      = ((Event.initiate k true :: iterParts env k)
          ++ [Event.complete k false, Event.cancel k], false) :=
  uploadFileGo_complete_fail_step env fuel k hinit hchunks hcomp

/-- Witness for C8: the concrete run `envCompleteFail`. -/
theorem upload_file_complete_failure_cancels_witness :
    upload_file envCompleteFail
      = ((Event.initiate 0 true :: iterParts envCompleteFail 0)
          ++ [Event.complete 0 false, Event.cancel 0], false) :=
  upload_file_complete_failure_cancels envCompleteFail MAX_RETRY_COUNT 0 rfl rfl rfl

/-- Claim C9: `cancel_upload` executes its try-block (cancel, sleep, re-list,
cancel stragglers) at most `CANCEL_MAX_ATTEMPTS` times, and on persistent
failure it simply returns `(CANCEL_MAX_ATTEMPTS, false)` — every exception is
caught, so in the model the function is total and has no error outcome at
all: cancellation failure never propagates (agent.py lines 103-121). -/
theorem cancel_upload_bounded_and_silent (attemptFails : Nat → Bool) :
    (cancel_upload attemptFails).1 ≤ CANCEL_MAX_ATTEMPTS
    ∧ ((∀ a, a < CANCEL_MAX_ATTEMPTS → attemptFails a = true) →
        cancel_upload attemptFails = (CANCEL_MAX_ATTEMPTS, false)) := by
  constructor
  · exact cancelUploadGo_le attemptFails CANCEL_MAX_ATTEMPTS 0
  · intro h
    exact cancelUploadGo_all_fail attemptFails CANCEL_MAX_ATTEMPTS 0
      (fun a ha => h a (by omega))

/-- Witness for C9: all attempts failing. -/
theorem cancel_upload_bounded_and_silent_witness :
    cancel_upload (fun _ => true) = (CANCEL_MAX_ATTEMPTS, false) :=
  (cancel_upload_bounded_and_silent (fun _ => true)).2 (fun _ _ => rfl)

/-- Claim C10: a (data path, keyspace glob) combination whose glob matches no
files still contributes one empty-string entry to the file list (joining the
empty result list gives the empty string, whose split on newline is a
one-element list holding the empty string), so the written manifest can
contain empty lines — as the concrete manifest `a\n\nb` for entries
`[a, empty, b]` shows. -/
theorem create_upload_manifest_empty_glob_entry
    (data_paths keyspace_globs : List PyStr) (globResults : PyStr → PyStr → List PyStr)
    (dp kg : PyStr) (hdp : dp ∈ data_paths) (hkg : kg ∈ keyspace_globs)
    (hempty : globResults dp kg = []) :
    comboEntries [] = [[]]
    ∧ [] ∈ create_upload_manifest_files data_paths keyspace_globs globResults
    ∧ manifestContents [['a'], [], ['b']] = ['a', '\n', '\n', 'b'] := by
  refine ⟨by decide, ?_, by decide⟩
  unfold create_upload_manifest_files
  rw [List.mem_flatMap]
  refine ⟨dp, hdp, ?_⟩
  rw [List.mem_flatMap]
  refine ⟨kg, hkg, ?_⟩
  rw [hempty]
  decide

/-- Witness for C10: a single data path and keyspace glob with an empty glob
result yields the empty entry. -/
theorem create_upload_manifest_empty_glob_entry_witness :
    [] ∈ create_upload_manifest_files [['d']] [['*']] (fun _ _ => []) :=
  (create_upload_manifest_empty_glob_entry [['d']] [['*']] (fun _ _ => [])
    ['d'] ['*'] (by decide) (by decide) rfl).2.1

end Agent

